import Mathlib

/-!
Verification development for the backup-extraction-and-SQL-regeneration
pipeline.  Strings are modelled as `List Char` (`Str`), and the Python
string operations used by the scripts (`find`, slicing, `split`, `strip`,
`replace`, `lower`, `upper`, string formatting, dict insertion) are given
faithful executable models.  On top of those models the individual scripts
(`restore_requirements.py`, `execute_restoration.py`,
`create_insert_statements.py`, `execute_sql_chunks.py`,
`bulk_restore_all.py`) are embedded function by function.
-/

/-- Strings are modelled as lists of characters. -/
abbrev Str := List Char

/-- Model of Python `str.split(sep)` for a one-character separator:
splits on every occurrence of the separator, keeping empty segments. -/
def pySplit (sep : Char) : Str → List Str
  | [] => [[]]
  | d :: rest =>
    let r := pySplit sep rest
    if d = sep then [] :: r
    else
      match r with
      | [] => [[d]]
      | h :: t => (d :: h) :: t

/-- The characters Python `str.strip()` removes (Python whitespace). -/
def pyIsSpace (c : Char) : Bool :=
  c = ' ' || c = '\t' || c = '\n' || c = '\r' || c = '\x0b' || c = '\x0c'

/-- Model of Python `str.strip()` with no arguments. -/
def pyStrip (l : Str) : Str :=
  ((l.dropWhile pyIsSpace).reverse.dropWhile pyIsSpace).reverse

/-- Model of Python `str.rstrip(c)` for a one-character argument. -/
def pyRstrip (c : Char) (l : Str) : Str :=
  (l.reverse.dropWhile (fun d => d = c)).reverse

/-- Model of Python `str.lower()` (all names in this code base are ASCII). -/
def pyLower (l : Str) : Str := l.map Char.toLower

/-- Model of Python `str.upper()`. -/
def pyUpper (l : Str) : Str := l.map Char.toUpper

/-- Model of Python `str.replace("'", "''")`: double every single quote. -/
def escQuote : Str → Str
  | [] => []
  | c :: rest => if c = '\'' then '\'' :: '\'' :: escQuote rest else c :: escQuote rest

/-- Scan the suffixes of a string for the first position (counted from
`i`) at which `sub` occurs.  Helper for the model of `str.find`. -/
def subAt (sub : Str) : Str → Nat → Option Nat
  | [], i => if sub.isPrefixOf ([] : Str) then some i else none
  | s@(_ :: t), i => if sub.isPrefixOf s then some i else subAt sub t (i + 1)

/-- First index `i ≥ start` at which `sub` occurs as a substring of `s`. -/
def findSubFrom (s sub : Str) (start : Nat) : Option Nat :=
  subAt sub (s.drop start) start

/-- Model of Python `s.find(sub, start)`: returns the first index at or
after `start` where `sub` occurs, or `-1`; a negative `start` counts from
the end of the string, clamped at `0`, exactly as in slice arithmetic. -/
def pyFind (s sub : Str) (start : Int) : Int :=
  let st : Nat := if start < 0 then ((s.length : Int) + start).toNat else start.toNat
  match findSubFrom s sub st with
  | some i => (i : Int)
  | none => -1

/-- Substring test, used to model Python's `in` operator on strings. -/
def isSubstr (sub s : Str) : Bool :=
  (findSubFrom s sub 0).isSome

/-- Clamp one slice endpoint the way Python slicing does. -/
def pyIdx (len : Nat) (i : Int) : Nat :=
  let j : Int := if i < 0 then (len : Int) + i else i
  (max 0 (min j (len : Int))).toNat

/-- Model of Python slicing `s[a:b]` with arbitrary integer endpoints. -/
def pySlice (l : Str) (a b : Int) : Str :=
  let la := pyIdx l.length a
  let lb := pyIdx l.length b
  (l.drop la).take (lb - la)

/-- Decimal digit characters, as produced by Python `str(n)`. -/
def digitChar (n : Nat) : Char :=
  match n with
  | 0 => '0' | 1 => '1' | 2 => '2' | 3 => '3' | 4 => '4'
  | 5 => '5' | 6 => '6' | 7 => '7' | 8 => '8' | 9 => '9'
  | _ => '*'

/-- Fuel-driven decimal printer; the fuel only has to dominate the number
of digits, so `n` itself is always enough. -/
def natToStrAux : Nat → Nat → Str
  | 0, n => [digitChar n]
  | fuel + 1, n => if n < 10 then [digitChar n] else natToStrAux fuel (n / 10) ++ [digitChar (n % 10)]

/-- Model of Python `str(n)` for a natural number. -/
def natToStr (n : Nat) : Str := natToStrAux n n

/-- Model of the Python format `f"{n:02d}"`. -/
def pad2 (n : Nat) : Str :=
  if n < 10 then '0' :: natToStr n else natToStr n

/-- Python `dict` assignment `d[k] = v` on an insertion-ordered
association list: overwrites the value in place when the key is already
present, otherwise appends the new pair at the end. -/
def dictUpsert {α : Type} (k : Str) (v : α) : List (Str × α) → List (Str × α)
  | [] => [(k, v)]
  | (k', v') :: rest => if k' = k then (k, v) :: rest else (k', v') :: dictUpsert k v rest

/-- Python `d.setdefault(k, []).append(v)` pattern used by
`restore_requirements.py`: append `v` to the list stored at `k`. -/
def dictAppendTo {α : Type} (k : Str) (v : α) : List (Str × List α) → List (Str × List α)
  | [] => [(k, [v])]
  | (k', vs) :: rest => if k' = k then (k', vs ++ [v]) :: rest else (k', vs) :: dictAppendTo k v rest

/-- Lookup in the association-list model of a Python dict. -/
def dictLookup {α : Type} (k : Str) (d : List (Str × α)) : Option α :=
  (d.find? (fun kv => decide (kv.1 = k))).map Prod.snd

/-- The five-field requirement record read by the light extraction paths. -/
structure ReqData where
  standard_id : Str
  control_id : Str
  title : Str
  description : Str
  deriving DecidableEq, Repr

instance : Inhabited ReqData := ⟨⟨[], [], [], []⟩⟩

/-- The PostgreSQL null sentinel `\N` as it appears in the backup text. -/
def sentStr : Str := "\\N".data

/-- The SQL keyword rendered for null fields. -/
def nullStr : Str := "NULL".data

/-- The two-character sequence backslash-`n` that the Python sources write
with `"\\n"` (a literal backslash followed by the letter `n`). -/
def litNl : Str := "\\n".data

/-- Shared section-extraction logic of `execute_restoration.py` (lines
19-22) and `create_insert_statements.py` (lines 13-16): locate the given
`COPY` marker, skip past `FROM stdin;` plus one character, and slice up to
the `\.` terminator, stripping the result.  No missing-marker check. -/
def copySection (content marker : Str) : Str :=
  let start := pyFind content marker 0
  let dataStart := pyFind content ("FROM stdin;".data) start + 11 + 1
  let dataEnd := pyFind content ("\\.".data) dataStart
  pyStrip (pySlice content dataStart dataEnd)

/-- The requirements section of the backup, as sliced by
`execute_restoration.py` and `create_insert_statements.py`. -/
def reqSection (content : Str) : Str :=
  copySection content ("COPY public.requirements_library".data)

/-- `[line for line in section.split('\n') if line.strip()]`. -/
def nonBlankLines (s : Str) : List Str :=
  (pySplit '\n' s).filter (fun l => !(pyStrip l).isEmpty)

/-- One iteration of the row loop of `extract_requirements_from_backup`
(execute_restoration.py lines 28-42): a row with at least five
tab-separated fields yields `(req_id, record)`. -/
def rowToPair (line : Str) : Option (Str × ReqData) :=
  let parts := pySplit '\t' line
  if 5 ≤ parts.length then
    some (parts.getD 0 [], ⟨parts.getD 1 [], parts.getD 2 [], parts.getD 3 [], parts.getD 4 []⟩)
  else none

/-- The `(req_id, record)` pairs produced by the row loop, keyed by the
first field, in row order. -/
def parsedRows (content : Str) : List (Str × ReqData) :=
  (nonBlankLines (reqSection content)).filterMap rowToPair

/-- `extract_requirements_from_backup` of `execute_restoration.py`: the
rows are entered into a Python dict keyed by requirement id, so a later
row with the same id overwrites an earlier one. -/
def extractRequirementsFromBackup (content : Str) : List (Str × ReqData) :=
  (parsedRows content).foldl (fun d kv => dictUpsert kv.1 kv.2 d) []

/-- Hard-coded ISO 27001 standard identifier (create_insert_statements.py
line 21, execute_restoration.py line 54). -/
def iso27001uuid : Str := "55742f4e-769b-4efe-912c-1371de5e1cd6".data

/-- Hard-coded ISO 27002 standard identifier. -/
def iso27002uuid : Str := "8508cfb0-3457-4226-b39a-851be52ef7ea".data

/-- The `target_standards` dict of `generate_restoration_sql`
(execute_restoration.py lines 53-59), in insertion order. -/
def targetStandards : List (Str × Str) :=
  [("iso27001".data, iso27001uuid),
   ("iso27002".data, iso27002uuid),
   ("cis_ig1".data, "afe9728d-2084-4b6b-8653-b04e1e92cdff".data),
   ("cis_ig2".data, "05501cbc-c463-4668-ae84-9acb1a4d5332".data),
   ("cis_ig3".data, "b1d9e82f-b0c3-40e2-89d7-4c51e216214e".data)]

/-- The filter `if req_data['standard_id'] in target_standards.values()`
(execute_restoration.py lines 68-71). -/
def targetRequirementsOf (d : List (Str × ReqData)) : List (Str × ReqData) :=
  d.filter (fun kv => targetStandards.any (fun ts => decide (ts.2 = kv.2.standard_id)))

/-- The seven lines appended per requirement by `generate_restoration_sql`
(execute_restoration.py lines 83-94), quote-escaping the title and
description first. -/
def updateStatementLines (reqId : Str) (rd : ReqData) : List Str :=
  let title := escQuote rd.title
  let description := escQuote rd.description
  ["-- Update ".data ++ rd.control_id ++ ": ".data ++ title.take 60 ++ "...".data,
   "UPDATE requirements_library SET".data,
   "  title = '".data ++ title ++ "',".data,
   "  description = '".data ++ description ++ "',".data,
   "  updated_at = NOW()".data,
   "WHERE id = '".data ++ reqId ++ "';".data,
   "".data]

/-- Per-standard block of `generate_restoration_sql` (lines 76-94):
header comment, blank line, then the per-requirement statements. -/
def stdBlock (name id : Str) (tr : List (Str × ReqData)) : List Str :=
  let reqs := tr.filter (fun kv => decide (kv.2.standard_id = id))
  if reqs.isEmpty then []
  else
    ("-- ".data ++ pyUpper name ++ " Requirements (".data ++ natToStr reqs.length ++ " total)".data)
      :: "".data
      :: (reqs.map (fun kv => updateStatementLines kv.1 kv.2)).flatten

/-- The four header comment lines of the restoration script. -/
def restorationHeader : List Str :=
  ["-- Requirements Restoration SQL".data,
   "-- Updates ONLY titles and descriptions from backup".data,
   "-- Preserves all other columns and recent changes".data,
   "".data]

/-- The trailing verification query block (execute_restoration.py lines
97-109), including the `rstrip(',')` fix-up of the last id line. -/
def verificationLines : List Str :=
  let uuidLines := targetStandards.map (fun ts => "  '".data ++ ts.2 ++ "',".data)
  ["-- Verification Queries".data,
   "SELECT ".data,
   "  sl.name as standard_name,".data,
   "  COUNT(*) as requirement_count".data,
   "FROM requirements_library rl".data,
   "JOIN standards_library sl ON rl.standard_id = sl.id".data,
   "WHERE sl.id IN (".data]
  ++ (uuidLines.dropLast ++ [pyRstrip ',' (uuidLines.getLast?.getD [])])
  ++ [")".data, "GROUP BY sl.name, sl.id".data, "ORDER BY sl.name;".data]

/-- The full ordered line list built by `generate_restoration_sql`. -/
def restorationLines (content : Str) : List Str :=
  let tr := targetRequirementsOf (extractRequirementsFromBackup content)
  restorationHeader
  ++ (targetStandards.map (fun ts => stdBlock ts.1 ts.2 tr)).flatten
  ++ verificationLines

/-- `generate_restoration_sql` (execute_restoration.py line 111): the
lines are joined with `'\\n'`, i.e. with the literal two-character
sequence backslash-`n`, not with newline characters. -/
def generateRestorationSql (content : Str) : Str :=
  List.intercalate litNl (restorationLines content)

/-- `standard_map` construction of `extract_backup_data`
(restore_requirements.py lines 27-36): a dict keyed by standard id whose
value is `f"{name} {version}".strip()`. -/
def parseStandardsMap (content : Str) : List (Str × Str) :=
  (pySplit '\n' (copySection content ("COPY public.standards_library".data))).foldl
    (fun m line =>
      if (pyStrip line).isEmpty then m
      else
        let parts := pySplit '\t' line
        if 3 ≤ parts.length then
          dictUpsert (parts.getD 0 []) (pyStrip (parts.getD 1 [] ++ [' '] ++ parts.getD 2 [])) m
        else m)
    []

/-- `requirements_by_standard` construction of `extract_backup_data`
(restore_requirements.py lines 52-73); each value keeps
`(id, control_id, title, description, full_line)`. -/
def parseReqsByStandard (content : Str) : List (Str × List (Str × Str × Str × Str × Str)) :=
  (nonBlankLines (reqSection content)).foldl
    (fun m line =>
      let parts := pySplit '\t' line
      if 5 ≤ parts.length then
        dictAppendTo (parts.getD 1 [])
          (parts.getD 0 [], parts.getD 2 [], parts.getD 3 [], parts.getD 4 [], line) m
      else m)
    []

/-- `extract_backup_data` of `restore_requirements.py`: returns `none`
(the model of the Python `return None, None`) when either the
`standards_library` or the `requirements_library` `COPY` marker is absent
from the backup text. -/
def extractBackupData (content : Str) :
    Option ((List (Str × Str)) × (List (Str × List (Str × Str × Str × Str × Str)))) :=
  if pyFind content ("COPY public.standards_library".data) 0 = -1 then none
  else
    let sm := parseStandardsMap content
    if pyFind content ("COPY public.requirements_library".data) 0 = -1 then none
    else some (sm, parseReqsByStandard content)

/-- Result record of `find_target_standards`. -/
structure TargetIds where
  iso27001_id : Option Str
  iso27002_id : Option Str
  cis_ig1_id : Option Str
  cis_ig2_id : Option Str
  cis_ig3_id : Option Str
  deriving DecidableEq, Repr

/-- Raw `'iso' in name_lower and '27001' in name_lower` test. -/
def m27001 (p : Str × Str) : Bool :=
  isSubstr ("iso".data) (pyLower p.2) && isSubstr ("27001".data) (pyLower p.2)

/-- Raw `'iso' in name_lower and '27002' in name_lower` test. -/
def m27002 (p : Str × Str) : Bool :=
  isSubstr ("iso".data) (pyLower p.2) && isSubstr ("27002".data) (pyLower p.2)

/-- Raw `'cis' in name_lower and 'ig1' in name_lower` test. -/
def mig1 (p : Str × Str) : Bool :=
  isSubstr ("cis".data) (pyLower p.2) && isSubstr ("ig1".data) (pyLower p.2)

/-- Raw `'cis' in name_lower and 'ig2' in name_lower` test. -/
def mig2 (p : Str × Str) : Bool :=
  isSubstr ("cis".data) (pyLower p.2) && isSubstr ("ig2".data) (pyLower p.2)

/-- Raw `'cis' in name_lower and 'ig3' in name_lower` test. -/
def mig3 (p : Str × Str) : Bool :=
  isSubstr ("cis".data) (pyLower p.2) && isSubstr ("ig3".data) (pyLower p.2)

/-- One iteration of the `if`/`elif` chain of `find_target_standards`
(restore_requirements.py lines 85-96): the matching branch assigns the
current standard's id unconditionally. -/
def resolveStep (acc : TargetIds) (p : Str × Str) : TargetIds :=
  if m27001 p then { acc with iso27001_id := some p.1 }
  else if m27002 p then { acc with iso27002_id := some p.1 }
  else if mig1 p then { acc with cis_ig1_id := some p.1 }
  else if mig2 p then { acc with cis_ig2_id := some p.1 }
  else if mig3 p then { acc with cis_ig3_id := some p.1 }
  else acc

/-- `find_target_standards` of `restore_requirements.py`, iterating the
standard map in insertion order. -/
def findTargetStandards (m : List (Str × Str)) : TargetIds :=
  m.foldl resolveStep ⟨none, none, none, none, none⟩

/-- Identifier of the last standard in iteration order satisfying the
given test (the value left behind by repeated unconditional overwrites). -/
def lastWin (pr : (Str × Str) → Bool) (m : List (Str × Str)) : Option Str :=
  (m.reverse.find? pr).map Prod.fst

/-- A single quote, kept as a named piece so that the INSERT template
below mirrors the f-string of `create_insert_statements.py` exactly while
staying decomposable. -/
def q : Str := "'".data

/-- The column-list head of the INSERT f-string (create_insert_statements.py
lines 66-71) together with the first three quoted values. -/
def insertPre (reqId sid ctl : Str) : Str :=
  "INSERT INTO requirements_library (\n    id, standard_id, control_id, title, description, category, priority, \n    parent_requirement_id, order_index, created_at, updated_at, is_active, \n    tags, official_description, implementation_guidance, audit_ready_guidance, section\n) VALUES (\n    ".data
  ++ q ++ reqId ++ q ++ ", ".data ++ q ++ sid ++ q ++ ", ".data ++ q ++ ctl ++ q ++ ", ".data

/-- The value list of the INSERT f-string after the description (lines
72-75).  The fields `parent`, `oi`, `ia`, `tags`, `od`, `ig`, `ard` and
`sec` are interpolated bare: any quoting must already be part of the
argument. -/
def insertPost (cat prio parent oi ca ua ia tags od ig ard sec : Str) : Str :=
  ", \n    ".data
  ++ q ++ cat ++ q ++ ", ".data ++ q ++ prio ++ q ++ ", ".data ++ parent ++ ", ".data
  ++ oi ++ ", \n    ".data
  ++ q ++ ca ++ q ++ ", ".data ++ q ++ ua ++ q ++ ", ".data ++ ia ++ ", ".data
  ++ tags ++ ", ".data ++ od ++ ", \n    ".data
  ++ ig ++ ", ".data ++ ard ++ ", ".data ++ sec ++ "\n);".data

/-- The f-string of `create_insert_statements.py` lines 66-75, with each
interpolated variable a parameter; `title` and `desc` sit between the
quotes written in the template. -/
def insertSql (reqId sid ctl title desc cat prio parent oi ca ua ia tags od ig ard sec : Str) : Str :=
  insertPre reqId sid ctl ++ q ++ title ++ q ++ ", ".data ++ q ++ desc ++ q
    ++ insertPost cat prio parent oi ca ua ia tags od ig ard sec

/-- `parts[i] if parts[i] != '\\N' else 'NULL'` (create_insert_statements.py
lines 37-46). -/
def nullableField (f : Str) : Str := if f = sentStr then nullStr else f

/-- `if x != 'NULL': x = f"'{x}'"` (lines 57-64). -/
def quoteIfNotNull (f : Str) : Str := if f = nullStr then f else q ++ f ++ q

/-- `if x != 'NULL': x = x.replace("'", "''"); x = f"'{x}'"` (lines 53-55,
applied only to `audit_ready_guidance`). -/
def quoteEscIfNotNull (f : Str) : Str := if f = nullStr then f else q ++ escQuote f ++ q

/-- The INSERT statement built for one parsed row, with the per-field
processing of `extract_requirements_for_insert` (lines 30-75). -/
def insertStmt (parts : List Str) : Str :=
  insertSql (parts.getD 0 []) (parts.getD 1 []) (parts.getD 2 [])
    (escQuote (parts.getD 3 [])) (escQuote (parts.getD 4 [])) (escQuote (parts.getD 5 []))
    (parts.getD 6 [])
    (quoteIfNotNull (nullableField (parts.getD 7 [])))
    (parts.getD 8 []) (parts.getD 9 []) (parts.getD 10 []) (parts.getD 11 [])
    (quoteIfNotNull (nullableField (parts.getD 12 [])))
    (nullableField (parts.getD 13 []))
    (nullableField (parts.getD 14 []))
    (quoteEscIfNotNull (nullableField (parts.getD 15 [])))
    (quoteIfNotNull (nullableField (parts.getD 16 [])))

/-- Row handling of `extract_requirements_for_insert`: rows with at least
18 tab-separated fields yield `(standard_id, control_id, statement)`. -/
def partsToInsert (parts : List Str) : Option (Str × Str × Str) :=
  if 18 ≤ parts.length then some (parts.getD 1 [], parts.getD 2 [], insertStmt parts) else none

/-- `extract_requirements_for_insert` of `create_insert_statements.py`:
the two per-standard lists of `(control_id, insert_sql)` pairs, in row
order. -/
def extractRequirementsForInsert (content : Str) : (List (Str × Str)) × (List (Str × Str)) :=
  (nonBlankLines (reqSection content)).foldl
    (fun acc line =>
      match partsToInsert (pySplit '\t' line) with
      | some (sid, ctl, stmt) =>
        if sid = iso27001uuid then (acc.1 ++ [(ctl, stmt)], acc.2)
        else if sid = iso27002uuid then (acc.1, acc.2 ++ [(ctl, stmt)])
        else acc
      | none => acc)
    ([], [])

/-- Lexicographic string comparison by character code, the order Python
uses when comparing strings with `<` / inside `sorted`. -/
def strLe : Str → Str → Bool
  | [], _ => true
  | _ :: _, [] => false
  | a :: as, b :: bs => if a = b then strLe as bs else decide (a < b)

/-- The sort key relation of `sorted(inserts, key=lambda x: x[0])`. -/
def insertLe (a b : Str × Str) : Prop := strLe a.1 b.1 = true

instance : DecidableRel insertLe := fun a b => by
  unfold insertLe
  infer_instance

/-- Model of Python's stable `sorted(inserts, key=lambda x: x[0])`
(create_insert_statements.py lines 97 and 107), as a stable insertion
sort on the lexicographic key order. -/
def sortByControlId (l : List (Str × Str)) : List (Str × Str) :=
  List.insertionSort insertLe l

/-- The statement list written to `iso27001_inserts.sql`
(create_insert_statements.py line 97): ALL matches, sorted by control
id. -/
def iso27001SortedInserts (ins : List (Str × Str)) : List (Str × Str) :=
  sortByControlId ins

/-- The statement list written to `iso27002_inserts_sample.sql` (line
107): only the FIRST 20 of the sorted matches. -/
def iso27002SampleInserts (ins : List (Str × Str)) : List (Str × Str) :=
  (sortByControlId ins).take 20

/-- One `f.write` group of the INSERT-writing loops (lines 98-100 and
108-110): comment, statement, separators — all separators are the literal
two-character backslash-`n`. -/
def insertEntry (p : Str × Str) : Str :=
  "-- Insert ".data ++ p.1 ++ litNl ++ p.2 ++ litNl ++ litNl

/-- Contents of `iso27001_inserts.sql` as written by `main` of
`create_insert_statements.py` (lines 93-100): all matches, sorted. -/
def iso27001FileContent (ins : List (Str × Str)) : Str :=
  "-- ISO 27001 Requirements INSERT Statements".data ++ litNl
  ++ "-- Generated from July 19th backup".data ++ litNl ++ litNl
  ++ ((sortByControlId ins).map insertEntry).flatten

/-- Contents of `iso27002_inserts_sample.sql` (lines 103-110): only the
first 20 sorted entries are written. -/
def iso27002SampleFileContent (ins : List (Str × Str)) : Str :=
  "-- ISO 27002 Requirements INSERT Statements (Sample)".data ++ litNl
  ++ "-- Generated from July 19th backup".data ++ litNl ++ litNl
  ++ (((sortByControlId ins).take 20).map insertEntry).flatten

/-- Validity test for a position `t` (a suffix of the script) to complete
the pattern `WHERE id = '[^']+';` of `split_sql_into_chunks`. -/
def validWhereHere (t : Str) : Bool :=
  ("WHERE id = '".data).isPrefixOf t &&
    (let r := t.drop 12
     let w := r.takeWhile (fun c => c ≠ '\'')
     !w.isEmpty && decide ((r.drop w.length).take 2 = "';".data))

/-- First absolute position `j` (scanning the given suffix, which starts
at absolute position `j₀`) where the terminating `WHERE id = '...';`
piece of the regex can match. -/
def findValidWhere : Str → Nat → Option Nat
  | [], _ => none
  | t@(_ :: rest), j => if validWhereHere t then some j else findValidWhere rest (j + 1)

/-- One leftmost-shortest match of the regex
`-- Update.*?WHERE id = '[^']+';` (with DOTALL) at or after `pos`:
returns the start index and the exclusive end index. -/
def nextUpdMatch (s : Str) (pos : Nat) : Option (Nat × Nat) :=
  match findSubFrom s ("-- Update".data) pos with
  | none => none
  | some i =>
    match findValidWhere (s.drop (i + 9)) (i + 9) with
    | none => none
    | some j =>
      let w := ((s.drop j).drop 12).takeWhile (fun c => c ≠ '\'')
      some (i, j + 12 + w.length + 2)

/-- Fuel-driven scan collecting all the regex matches in order, as
`re.findall` does. -/
def findUpdatesAux (s : Str) : Nat → Nat → List Str
  | 0, _ => []
  | fuel + 1, pos =>
    match nextUpdMatch s pos with
    | none => []
    | some (i, e) => ((s.drop i).take (e - i)) :: findUpdatesAux s fuel e

/-- The ordered list of UPDATE statements extracted by
`re.findall(r'-- Update.*?WHERE id = \'[^\']+\';', sql, re.DOTALL)`
(execute_sql_chunks.py line 11). -/
def findUpdates (s : Str) : List Str := findUpdatesAux s (s.length + 1) 0

/-- Fuel-driven body of the chunking loop; the fuel only has to dominate
the number of produced chunks, so `l.length + 1` is always enough. -/
def chunkListAux {α : Type} : Nat → Nat → List α → List (List α)
  | 0, _, _ => []
  | fuel + 1, c, l =>
    if l.isEmpty ∨ c = 0 then []
    else l.take c :: chunkListAux fuel c (l.drop c)

/-- The chunking loop `for i in range(0, len(updates), chunk_size)`
(execute_sql_chunks.py lines 14-16): consecutive groups of at most `c`
statements, in order. -/
def chunkList {α : Type} (c : Nat) (l : List α) : List (List α) :=
  chunkListAux (l.length + 1) c l

/-- `split_sql_into_chunks`: each chunk is the `'\n\n'`-join (real
newlines here: the Python literal is `'\n\n'`) of its statements. -/
def splitSqlIntoChunks (sql : Str) (c : Nat) : List Str :=
  (chunkList c (findUpdates sql)).map (List.intercalate ("\n\n".data))

/-- The chunk file name `f'sql_chunk_{n:02d}.sql'`. -/
def chunkFileName (n : Nat) : Str :=
  "sql_chunk_".data ++ pad2 n ++ ".sql".data

/-- The file-writing loop of `main` in `execute_sql_chunks.py` (lines
31-34): `(file name, chunk contents)` pairs, the index starting at `i+1`
for enumeration index `i`. -/
def chunkFiles (i : Nat) : List Str → List (Str × Str)
  | [] => []
  | ch :: rest => (chunkFileName (i + 1), ch) :: chunkFiles (i + 1) rest

/-- One step of the line scanner of `create_complete_sql`
(bulk_restore_all.py lines 29-39): state is `(collected lines, current
UPDATE statement lines if inside one)`. -/
def aggStep (st : List Str × Option (List Str)) (line : Str) : List Str × Option (List Str) :=
  match st.2 with
  | none =>
    if ("UPDATE requirements_library SET".data).isPrefixOf (pyStrip line)
    then (st.1, some [line]) else (st.1, none)
  | some cur =>
    let cur2 := cur ++ [line]
    if (pyStrip line).getLast? = some ';' then (st.1 ++ cur2 ++ [[]], none)
    else (st.1, some cur2)

/-- The UPDATE-statement lines extracted from one chunk file by
`create_complete_sql`. -/
def extractUpdLines (content : Str) : List Str :=
  ((pySplit '\n' content).foldl aggStep ([], none)).1

/-- `create_complete_sql` of `bulk_restore_all.py`, applied to the chunk
file contents in ascending file-name order: fixed header, then the
extracted UPDATE regions, joined with real newlines. -/
def aggregateChunks (chunks : List Str) : Str :=
  List.intercalate ("\n".data)
    (["-- COMPLETE REQUIREMENTS RESTORATION".data,
      "-- Restoring ALL requirements from July 19th backup".data,
      "".data]
     ++ (chunks.map extractUpdLines).flatten)

/-- A minimal well-formed backup containing one ISO 27001 requirement
row, used to evaluate the restoration pipeline at a concrete input. -/
def c2content : Str :=
  "COPY public.requirements_library (id) FROM stdin;\nr1\t55742f4e-769b-4efe-912c-1371de5e1cd6\tc1\tT\tD\n\\.\n".data

/-- A backup text that contains NO `COPY public.requirements_library`
marker, yet contains a tab-separated 18-field data row (with the ISO
27001 standard id) followed by a `\.` terminator. -/
def c4content : Str :=
  "0123456789X\nr1\t55742f4e-769b-4efe-912c-1371de5e1cd6\tc1\tT\tD\tcat\thigh\t\\N\t1\tts1\tts2\ttrue\t\\N\t\\N\t\\N\t\\N\t\\N\tend\n\\.".data

/-- A standards map in which two different standards both match the ISO
27001 tokens. -/
def dupStdMap : List (Str × Str) :=
  [("A".data, "ISO 27001 first".data), ("B".data, "ISO 27001 second".data)]

/-- An 18-field row whose `official_description` (field 13) is the
non-sentinel value `X`. -/
def c1parts : List Str :=
  ["r1".data, "s1".data, "c1".data, "T".data, "D".data, "cat".data, "p".data,
   "\\N".data, "1".data, "t1".data, "t2".data, "t".data, "\\N".data, "X".data,
   "\\N".data, "\\N".data, "\\N".data, "z".data]

/-- Twenty-one `(control_id, statement)` pairs with pairwise distinct
control ids. -/
def c7w : List (Str × Str) :=
  [("a".data, "1".data), ("b".data, "2".data), ("c".data, "3".data), ("d".data, "4".data),
   ("e".data, "5".data), ("f".data, "6".data), ("g".data, "7".data), ("h".data, "8".data),
   ("i".data, "9".data), ("j".data, "10".data), ("k".data, "11".data), ("l".data, "12".data),
   ("m".data, "13".data), ("n".data, "14".data), ("o".data, "15".data), ("p".data, "16".data),
   ("qq".data, "17".data), ("r".data, "18".data), ("s".data, "19".data), ("t".data, "20".data),
   ("u".data, "21".data)]

/-- A small script containing three statements matched by the chunking
regex. -/
def c8sql : Str :=
  "-- UpdateWHERE id = 'a';-- UpdateWHERE id = 'b';-- UpdateWHERE id = 'c';".data

/-- A backup whose requirements block contains two well-formed data rows
sharing the same requirement id `A`. -/
def c10content : Str :=
  "COPY public.requirements_library (id) FROM stdin;\nA\tB\tC\tD\tE\nA\tB2\tC2\tD2\tE2\n\\.\n".data

/-- The value of the LAST row in `rows` whose first component equals
`k`, if any: the value a sequence of Python dict assignments leaves
behind for that key. -/
def lastMatch {α : Type} (k : Str) (rows : List (Str × α)) : Option α :=
  (rows.reverse.find? (fun kv => decide (kv.1 = k))).map Prod.snd

/-- A string has no undoubled single quote when every single quote in it
is immediately followed by another one (scanning left to right and
consuming quote pairs). -/
def noUndoubled : Str → Bool
  | [] => true
  | c :: rest =>
    if c = '\'' then
      match rest with
      | [] => false
      | c2 :: rest2 => if c2 = '\'' then noUndoubled rest2 else false
    else noUndoubled rest

/-- Direct single-conditional rendering of the nullable fields
`parent_requirement_id`, `tags` and `section`: the sentinel (and, due to
the intermediate reuse of the string `NULL`, a literal `NULL` value)
renders bare, anything else is wrapped in single quotes WITHOUT
escaping. -/
def renderPlain (f : Str) : Str :=
  if f = sentStr ∨ f = nullStr then nullStr else q ++ f ++ q

/-- Direct rendering of `official_description` and
`implementation_guidance`: the sentinel becomes bare `NULL`; any other
value is interpolated bare — unquoted and unescaped. -/
def renderBare (f : Str) : Str :=
  if f = sentStr then nullStr else f

/-- Direct rendering of `audit_ready_guidance`: the sentinel (or a
literal `NULL`) renders bare, anything else is quote-doubled and wrapped
in single quotes. -/
def renderEsc (f : Str) : Str :=
  if f = sentStr ∨ f = nullStr then nullStr else q ++ escQuote f ++ q

example : pySplit '\t' ("a\t\tb".data) = ["a".data, "".data, "b".data] := by decide
example : pySplit '\n' ("".data) = ["".data] := by decide
example : pyStrip ("  a b \t".data) = "a b".data := by decide
example : escQuote ("a'b".data) = "a''b".data := by decide
example : pyFind ("abcabc".data) ("bc".data) 2 = 4 := by decide
example : pyFind ("abc".data) ("zz".data) 0 = -1 := by decide
example : pyFind ("abc".data) ("zz".data) (-1) = -1 := by decide
example : pySlice ("abcdef".data) 2 (-1) = "cde".data := by decide
example : natToStr 120 = "120".data := by decide
example : pad2 7 = "07".data := by decide


/-! ### General helper lemmas -/

theorem strLe_total (a : Str) : ∀ b : Str, strLe a b = true ∨ strLe b a = true := by
  induction a with
  | nil => intro b; left; rfl
  | cons x xs ih =>
    intro b
    cases b with
    | nil => right; rfl
    | cons y ys =>
      by_cases hxy : x = y
      · subst hxy
        simpa [strLe] using ih ys
      · rcases lt_trichotomy x y with h | h | h
        · left; simp [strLe, hxy, h]
        · exact absurd h hxy
        · right
          have hyx : y ≠ x := fun e => hxy e.symm
          simp [strLe, hyx, h]

theorem strLe_trans : ∀ a b c : Str, strLe a b = true → strLe b c = true → strLe a c = true := by
  intro a
  induction a with
  | nil => intro b c _ _; rfl
  | cons x xs ih =>
    intro b c hab hbc
    cases b with
    | nil => simp [strLe] at hab
    | cons y ys =>
      cases c with
      | nil => simp [strLe] at hbc
      | cons z zs =>
        by_cases hxy : x = y
        · subst hxy
          by_cases hxz : x = z
          · subst hxz
            simp only [strLe, if_pos rfl] at hab hbc ⊢
            exact ih ys zs hab hbc
          · simp only [strLe, if_neg hxz] at hbc ⊢
            exact hbc
        · simp only [strLe, if_neg hxy, decide_eq_true_eq] at hab
          by_cases hyz : y = z
          · subst hyz
            simp [strLe, hxy]
            exact hab
          · simp only [strLe, if_neg hyz, decide_eq_true_eq] at hbc
            have hxz : x < z := lt_trans hab hbc
            simp [strLe, ne_of_lt hxz]
            exact hxz

theorem insertLe_isTotal : IsTotal (Str × Str) insertLe :=
  ⟨fun a b => by
    unfold insertLe
    exact strLe_total a.1 b.1⟩

theorem insertLe_isTrans : IsTrans (Str × Str) insertLe :=
  ⟨fun a b c hab hbc => strLe_trans a.1 b.1 c.1 hab hbc⟩

theorem sortByControlId_sorted (l : List (Str × Str)) :
    List.Sorted insertLe (sortByControlId l) :=
  @List.sorted_insertionSort _ insertLe _ insertLe_isTotal insertLe_isTrans l

theorem sortByControlId_perm (l : List (Str × Str)) : (sortByControlId l).Perm l :=
  List.perm_insertionSort insertLe l

/-! ### C6 -/

/-- C6: the INSERT generator's per-standard sort is the stable sort under
lexicographic string comparison of the control id; in particular the
control ids `["2.1", "10.1", "1.2"]` come out in the order
`["1.2", "10.1", "2.1"]` (lexicographic, not numeric). -/
theorem C6_sort_order (s1 s2 s3 : Str) :
    sortByControlId [("2.1".data, s1), ("10.1".data, s2), ("1.2".data, s3)]
      = [("1.2".data, s3), ("10.1".data, s2), ("2.1".data, s1)]
    ∧ ∀ l : List (Str × Str), List.Sorted insertLe (sortByControlId l) := by
  constructor
  · rfl
  · exact sortByControlId_sorted

/-! ### C3 -/

/-- C3 (claim refuted): with two standards both matching the ISO 27001
tokens, the resolver keeps the identifier of the SECOND (last) matching
standard, not the first. -/
theorem C3_counterexample :
    (findTargetStandards dupStdMap).iso27001_id = some ("B".data)
    ∧ (findTargetStandards dupStdMap).iso27001_id ≠ some ("A".data) := by
  decide

/-- C3 (amended): for every standards map, each target is assigned the
identifier of the LAST standard in iteration order matching that target's
effective branch test (the `if`/`elif` chain gives earlier branches
priority within a single standard, and later standards unconditionally
overwrite earlier assignments). -/
theorem C3_amended (m : List (Str × Str)) :
    (findTargetStandards m).iso27001_id = lastWin m27001 m
    ∧ (findTargetStandards m).iso27002_id = lastWin (fun p => !m27001 p && m27002 p) m
    ∧ (findTargetStandards m).cis_ig1_id
        = lastWin (fun p => !m27001 p && !m27002 p && mig1 p) m
    ∧ (findTargetStandards m).cis_ig2_id
        = lastWin (fun p => !m27001 p && !m27002 p && !mig1 p && mig2 p) m
    ∧ (findTargetStandards m).cis_ig3_id
        = lastWin (fun p => !m27001 p && !m27002 p && !mig1 p && !mig2 p && mig3 p) m := by
  induction m using List.reverseRecOn with
  | nil => exact ⟨rfl, rfl, rfl, rfl, rfl⟩
  | append_singleton m p IH =>
    obtain ⟨ih1, ih2, ih3, ih4, ih5⟩ := IH
    have hf : findTargetStandards (m ++ [p]) = resolveStep (findTargetStandards m) p := by
      simp [findTargetStandards, List.foldl_append]
    have hl : ∀ pr : (Str × Str) → Bool,
        lastWin pr (m ++ [p]) = if pr p then some p.1 else lastWin pr m := by
      intro pr
      cases hp : pr p with
      | true => simp [lastWin, List.reverse_append, List.find?, hp]
      | false => simp [lastWin, List.reverse_append, List.find?, hp]
    rw [hf]
    unfold resolveStep
    split_ifs with h1 h2 h3 h4 h5
    · refine ⟨?_, ?_, ?_, ?_, ?_⟩ <;> simp [hl, h1, ih1, ih2, ih3, ih4, ih5]
    · refine ⟨?_, ?_, ?_, ?_, ?_⟩ <;> simp [hl, h1, h2, ih1, ih2, ih3, ih4, ih5]
    · refine ⟨?_, ?_, ?_, ?_, ?_⟩ <;> simp [hl, h1, h2, h3, ih1, ih2, ih3, ih4, ih5]
    · refine ⟨?_, ?_, ?_, ?_, ?_⟩ <;> simp [hl, h1, h2, h3, h4, ih1, ih2, ih3, ih4, ih5]
    · refine ⟨?_, ?_, ?_, ?_, ?_⟩ <;> simp [hl, h1, h2, h3, h4, h5, ih1, ih2, ih3, ih4, ih5]
    · refine ⟨?_, ?_, ?_, ?_, ?_⟩ <;> simp [hl, h1, h2, h3, h4, h5, ih1, ih2, ih3, ih4, ih5]

/-! ### C2 -/

/-- C2 (bug exhibited): on a concrete one-row backup the restoration
generator emits one regex-extractable statement, but running the
aggregator over the batcher's chunks yields a script with no
`UPDATE requirements_library SET` occurrence at all: the round trip loses
every statement, because the generator joined its lines with the literal
two-character sequence backslash-`n` rather than newlines. -/
theorem C2_roundtrip_lost :
    (findUpdates (generateRestorationSql c2content)).length = 1
    ∧ isSubstr ("UPDATE requirements_library SET".data)
        ((findUpdates (generateRestorationSql c2content)).getD 0 []) = true
    ∧ isSubstr ("UPDATE requirements_library SET".data)
        (aggregateChunks (splitSqlIntoChunks (generateRestorationSql c2content) 8)) = false := by
  set_option maxRecDepth 20000 in decide

/-! ### C4 -/

/-- C4 (claim refuted): on a backup with no
`COPY public.requirements_library` marker, the light extraction of
`execute_restoration.py` and the INSERT extraction of
`create_insert_statements.py` do NOT return an empty result: the
unchecked `find` returns `-1`, the slice start degenerates to `11`, and
rows are parsed out of unrelated parts of the file. -/
theorem C4_counterexample :
    pyFind c4content ("COPY public.requirements_library".data) 0 = -1
    ∧ extractRequirementsFromBackup c4content ≠ []
    ∧ (extractRequirementsForInsert c4content).1 ≠ [] := by
  set_option maxRecDepth 20000 in decide

/-- C4 (amended): only the analysis entry point `extract_backup_data` of
`restore_requirements.py` treats a missing `COPY` marker as an error: it
returns `none` whenever the `standards_library` or the
`requirements_library` marker is absent. -/
theorem C4_amended (content : Str)
    (h : pyFind content ("COPY public.standards_library".data) 0 = -1
       ∨ pyFind content ("COPY public.requirements_library".data) 0 = -1) :
    extractBackupData content = none := by
  unfold extractBackupData
  rcases h with h | h
  · rw [if_pos h]
  · by_cases hs : pyFind content ("COPY public.standards_library".data) 0 = -1
    · rw [if_pos hs]
    · rw [if_neg hs]
      simp only [h, if_pos]

/-- C4 witness: the empty backup misses both markers and the parser
returns `none` on it. -/
theorem C4_amended_witness :
    (pyFind ("no markers here".data) ("COPY public.standards_library".data) 0 = -1
       ∨ pyFind ("no markers here".data) ("COPY public.requirements_library".data) 0 = -1)
    ∧ extractBackupData ("no markers here".data) = none :=
  ⟨Or.inl (by decide), C4_amended ("no markers here".data) (Or.inl (by decide))⟩

/-! ### C8 -/

theorem chunkListAux_nil {α : Type} : ∀ fuel c, chunkListAux (α := α) fuel c [] = [] := by
  intro fuel c
  cases fuel <;> simp [chunkListAux]

theorem chunkListAux_flatten {α : Type} :
    ∀ (fuel c : Nat) (l : List α), l.length < fuel → 0 < c →
      (chunkListAux fuel c l).flatten = l := by
  intro fuel
  induction fuel with
  | zero => intro c l h _; omega
  | succ fuel ih =>
    intro c l hlen hc
    simp only [chunkListAux]
    by_cases he : l.isEmpty ∨ c = 0
    · rcases he with he | he
      · rw [if_pos (Or.inl he)]
        simp [List.isEmpty_iff] at he
        simp [he]
      · omega
    · rw [if_neg he]
      have hne : ¬l.isEmpty := fun h => he (Or.inl h)
      have hlne : l ≠ [] := by simpa [List.isEmpty_iff] using hne
      have hlpos : 0 < l.length := List.length_pos.mpr hlne
      have hdrop : (l.drop c).length < fuel := by
        rw [List.length_drop]; omega
      rw [List.flatten_cons, ih c (l.drop c) hdrop hc, List.take_append_drop]

theorem chunkList_flatten {α : Type} (c : Nat) (hc : 0 < c) (l : List α) :
    (chunkList c l).flatten = l :=
  chunkListAux_flatten (l.length + 1) c l (by omega) hc

theorem chunkListAux_groups {α : Type} :
    ∀ (fuel c : Nat) (l : List α), l.length < fuel → 0 < c →
      ∀ k, k + 1 < (chunkListAux fuel c l).length →
        ((chunkListAux fuel c l).getD k []).length = c := by
  intro fuel
  induction fuel with
  | zero => intro c l h _; omega
  | succ fuel ih =>
    intro c l hlen hc k hk
    simp only [chunkListAux] at hk ⊢
    by_cases he : l.isEmpty ∨ c = 0
    · rw [if_pos he] at hk; simp at hk
    · rw [if_neg he] at hk ⊢
      have hne : ¬l.isEmpty := fun h => he (Or.inl h)
      have hlne : l ≠ [] := by simpa [List.isEmpty_iff] using hne
      have hlpos : 0 < l.length := List.length_pos.mpr hlne
      cases k with
      | zero =>
        have hrest : chunkListAux fuel c (l.drop c) ≠ [] := by
          intro hnil
          rw [hnil] at hk
          simp at hk
        have hdropne : l.drop c ≠ [] := by
          intro hd
          exact hrest (hd ▸ chunkListAux_nil fuel c)
        have : c < l.length := by
          by_contra hge
          exact hdropne (List.drop_eq_nil_of_le (by omega))
        simp [List.length_take]
        omega
      | succ k =>
        have hdrop : (l.drop c).length < fuel := by
          rw [List.length_drop]; omega
        simp only [List.length_cons] at hk
        exact ih c (l.drop c) hdrop hc k (by omega)

theorem chunkList_groups {α : Type} (c : Nat) (hc : 0 < c) (l : List α) :
    ∀ k, k + 1 < (chunkList c l).length → ((chunkList c l).getD k []).length = c :=
  chunkListAux_groups (l.length + 1) c l (by omega) hc

theorem chunkFiles_names :
    ∀ (cs : List Str) (i : Nat),
      (chunkFiles i cs).map Prod.fst
        = (List.range cs.length).map (fun k => chunkFileName (i + k + 1)) := by
  intro cs
  induction cs with
  | nil => intro i; simp [chunkFiles]
  | cons ch rest ih =>
    intro i
    simp only [chunkFiles, List.map_cons, List.length_cons, List.range_succ_eq_map,
      List.map_map, ih (i + 1)]
    refine congrArg₂ _ (by simp) ?_
    apply List.map_congr_left
    intro k _
    simp only [Function.comp]
    congr 1
    omega

/-- C8: for every input script and chunk size `c ≥ 1`, the batcher
partitions the extracted ordered statement list into consecutive groups
of exactly `c` statements except possibly the last, concatenating back to
the original extracted list in order; chunk `k` is serialized to the file
named `sql_chunk_NN.sql` with the zero-padded index `k + 1`. -/
theorem C8_batcher (sql : Str) (c : Nat) (hc : 1 ≤ c) :
    (chunkList c (findUpdates sql)).flatten = findUpdates sql
    ∧ (∀ k, k + 1 < (chunkList c (findUpdates sql)).length →
        ((chunkList c (findUpdates sql)).getD k []).length = c)
    ∧ splitSqlIntoChunks sql c
        = (chunkList c (findUpdates sql)).map (List.intercalate ("\n\n".data))
    ∧ (chunkFiles 0 (splitSqlIntoChunks sql c)).map Prod.fst
        = (List.range (splitSqlIntoChunks sql c).length).map (fun k => chunkFileName (k + 1)) := by
  refine ⟨chunkList_flatten c hc _, chunkList_groups c hc _, rfl, ?_⟩
  rw [chunkFiles_names]
  apply List.map_congr_left
  intro k _
  congr 1
  omega

/-- C8 witness: the theorem applied to a concrete three-statement script
with chunk size 2. -/
theorem C8_batcher_witness :
    1 ≤ 2
    ∧ ((chunkList 2 (findUpdates c8sql)).flatten = findUpdates c8sql
       ∧ (∀ k, k + 1 < (chunkList 2 (findUpdates c8sql)).length →
           ((chunkList 2 (findUpdates c8sql)).getD k []).length = 2)
       ∧ splitSqlIntoChunks c8sql 2
           = (chunkList 2 (findUpdates c8sql)).map (List.intercalate ("\n\n".data))
       ∧ (chunkFiles 0 (splitSqlIntoChunks c8sql 2)).map Prod.fst
           = (List.range (splitSqlIntoChunks c8sql 2).length).map
               (fun k => chunkFileName (k + 1))) :=
  ⟨by decide, C8_batcher c8sql 2 (by decide)⟩

/-! ### C10 -/

theorem dictUpsert_nil {α : Type} (k : Str) (v : α) :
    dictUpsert k v ([] : List (Str × α)) = [(k, v)] := rfl

theorem dictUpsert_cons_eq {α : Type} (k0 : Str) (v v0 : α) (rest : List (Str × α)) :
    dictUpsert k0 v ((k0, v0) :: rest) = (k0, v) :: rest := by
  rw [dictUpsert]
  rw [if_pos rfl]

theorem dictUpsert_cons_ne {α : Type} (k k0 : Str) (v v0 : α) (rest : List (Str × α))
    (h0 : k0 ≠ k) :
    dictUpsert k v ((k0, v0) :: rest) = (k0, v0) :: dictUpsert k v rest := by
  rw [dictUpsert]
  rw [if_neg h0]

theorem dictLookup_nil {α : Type} (k : Str) : dictLookup (α := α) k [] = none := rfl

theorem dictLookup_cons {α : Type} (k k0 : Str) (v0 : α) (d : List (Str × α)) :
    dictLookup k ((k0, v0) :: d) = if k0 = k then some v0 else dictLookup k d := by
  by_cases h : k0 = k
  · simp [dictLookup, List.find?, h]
  · simp [dictLookup, List.find?, h]

theorem dictLookup_upsert {α : Type} (k k' : Str) (v : α) (d : List (Str × α)) :
    dictLookup k (dictUpsert k' v d) = if k' = k then some v else dictLookup k d := by
  induction d with
  | nil =>
    show dictLookup k [(k', v)] = _
    rw [dictLookup_cons, dictLookup_nil]
  | cons kv rest ih =>
    obtain ⟨k0, v0⟩ := kv
    by_cases h0 : k0 = k'
    · subst h0
      rw [dictUpsert_cons_eq]
      rw [dictLookup_cons, dictLookup_cons]
      by_cases h : k0 = k <;> simp [h]
    · rw [dictUpsert_cons_ne _ _ _ _ _ h0]
      rw [dictLookup_cons, ih, dictLookup_cons]
      by_cases hk0 : k0 = k
      · have h' : k' ≠ k := fun e => h0 (hk0.trans e.symm)
        simp [hk0, h']
      · simp [hk0]

theorem lookup_foldl_upsert {α : Type} :
    ∀ (rows : List (Str × α)) (d : List (Str × α)) (k : Str),
      dictLookup k (rows.foldl (fun d kv => dictUpsert kv.1 kv.2 d) d)
        = (lastMatch k rows).orElse (fun _ => dictLookup k d) := by
  intro rows
  induction rows using List.reverseRecOn with
  | nil => intro d k; rfl
  | append_singleton rows r ih =>
    intro d k
    rw [List.foldl_append]
    simp only [List.foldl_cons, List.foldl_nil]
    rw [dictLookup_upsert]
    have hlast : lastMatch k (rows ++ [r])
        = if r.1 = k then some r.2 else lastMatch k rows := by
      unfold lastMatch
      rw [List.reverse_append]
      simp only [List.reverse_singleton, List.singleton_append, List.find?]
      by_cases hr : r.1 = k
      · simp [hr]
      · simp [hr]
    rw [hlast]
    by_cases hr : r.1 = k
    · simp only [if_pos hr]
      rfl
    · simp only [if_neg hr]
      exact ih d k

theorem map_fst_upsert {α : Type} [Inhabited α] (k : Str) (v : α) (d : List (Str × α)) :
    (dictUpsert k v d).map Prod.fst
      = if k ∈ d.map Prod.fst then d.map Prod.fst else d.map Prod.fst ++ [k] := by
  induction d with
  | nil => rw [dictUpsert_nil]; simp
  | cons kv rest ih =>
    obtain ⟨k0, v0⟩ := kv
    by_cases h0 : k0 = k
    · subst h0
      rw [dictUpsert_cons_eq]
      rw [if_pos (by simp)]
      simp
    · rw [dictUpsert_cons_ne _ _ _ _ _ h0]
      have hne : k ≠ k0 := fun e => h0 e.symm
      have hmm : (k ∈ ((k0, v0) :: rest).map Prod.fst) ↔ (k ∈ rest.map Prod.fst) := by
        simp [hne]
      by_cases hmem : k ∈ rest.map Prod.fst
      · rw [if_pos (hmm.mpr hmem)]
        simp only [List.map_cons, ih, if_pos hmem]
      · rw [if_neg (fun h => hmem (hmm.mp h))]
        simp only [List.map_cons, ih, if_neg hmem]
        simp

theorem keys_foldl_upsert {α : Type} [Inhabited α] :
    ∀ (rows : List (Str × α)) (d : List (Str × α)),
      ((( rows.foldl (fun d kv => dictUpsert kv.1 kv.2 d) d).map Prod.fst).toFinset
          = (d.map Prod.fst).toFinset ∪ (rows.map Prod.fst).toFinset)
      ∧ ((d.map Prod.fst).Nodup →
          ((rows.foldl (fun d kv => dictUpsert kv.1 kv.2 d) d).map Prod.fst).Nodup) := by
  intro rows
  induction rows with
  | nil => intro d; simp
  | cons r rest ih =>
    intro d
    simp only [List.foldl_cons, List.map_cons]
    constructor
    · rw [(ih (dictUpsert r.1 r.2 d)).1, map_fst_upsert]
      by_cases hmem : r.1 ∈ d.map Prod.fst
      · rw [if_pos hmem]
        ext a
        simp only [Finset.mem_union, List.mem_toFinset, List.toFinset_cons,
          Finset.mem_insert]
        constructor
        · tauto
        · rintro (h | h | h)
          · tauto
          · subst h; exact Or.inl hmem
          · tauto
      · rw [if_neg hmem]
        ext a
        simp only [Finset.mem_union, List.mem_toFinset, List.toFinset_cons,
          Finset.mem_insert, List.mem_append, List.mem_singleton]
        tauto
    · intro hnd
      refine (ih (dictUpsert r.1 r.2 d)).2 ?_
      rw [map_fst_upsert]
      by_cases hmem : r.1 ∈ d.map Prod.fst
      · rw [if_pos hmem]; exact hnd
      · rw [if_neg hmem]
        simp [List.nodup_append, hnd, hmem]

/-- C10: the light extraction of `execute_restoration.py` keys its result
by the first field: lookups return the LAST row's values for each id, the
number of returned records equals the number of distinct ids, and in the
presence of duplicate ids it is strictly smaller than the number of
well-formed data rows. -/
theorem C10_last_wins (content : Str)
    (h : ¬ ((parsedRows content).map Prod.fst).Nodup) :
    (∀ k : Str, dictLookup k (extractRequirementsFromBackup content)
        = lastMatch k (parsedRows content))
    ∧ (extractRequirementsFromBackup content).length
        = ((parsedRows content).map Prod.fst).dedup.length
    ∧ (extractRequirementsFromBackup content).length < (parsedRows content).length := by
  have hlen : (extractRequirementsFromBackup content).length
      = ((parsedRows content).map Prod.fst).dedup.length := by
    have hkeys := keys_foldl_upsert (parsedRows content) ([] : List (Str × ReqData))
    have hnd : ((extractRequirementsFromBackup content).map Prod.fst).Nodup := by
      simpa [extractRequirementsFromBackup] using hkeys.2 (by simp)
    have hfin : ((extractRequirementsFromBackup content).map Prod.fst).toFinset
        = ((parsedRows content).map Prod.fst).toFinset := by
      simpa [extractRequirementsFromBackup] using hkeys.1
    calc (extractRequirementsFromBackup content).length
        = ((extractRequirementsFromBackup content).map Prod.fst).length := by
          rw [List.length_map]
      _ = ((extractRequirementsFromBackup content).map Prod.fst).toFinset.card :=
          (List.toFinset_card_of_nodup hnd).symm
      _ = ((parsedRows content).map Prod.fst).toFinset.card := by rw [hfin]
      _ = ((parsedRows content).map Prod.fst).dedup.length := List.card_toFinset _
  refine ⟨?_, hlen, ?_⟩
  · intro k
    have := lookup_foldl_upsert (parsedRows content) ([] : List (Str × ReqData)) k
    rw [extractRequirementsFromBackup, this]
    cases lastMatch k (parsedRows content) <;> simp [dictLookup, Option.orElse]
  · rw [hlen]
    have hle : ((parsedRows content).map Prod.fst).dedup.length
        ≤ ((parsedRows content).map Prod.fst).length :=
      (List.dedup_sublist _).length_le
    have hlt : ((parsedRows content).map Prod.fst).dedup.length
        ≠ ((parsedRows content).map Prod.fst).length := by
      intro heq
      have : ((parsedRows content).map Prod.fst).dedup
          = (parsedRows content).map Prod.fst :=
        (List.dedup_sublist _).eq_of_length heq
      exact h (this ▸ List.nodup_dedup _)
    rw [← List.length_map (parsedRows content) Prod.fst]
    omega

/-- C10 witness: a concrete backup with two rows sharing the requirement
id `A`. -/
theorem C10_last_wins_witness :
    ¬ ((parsedRows c10content).map Prod.fst).Nodup
    ∧ ((∀ k : Str, dictLookup k (extractRequirementsFromBackup c10content)
          = lastMatch k (parsedRows c10content))
       ∧ (extractRequirementsFromBackup c10content).length
           = ((parsedRows c10content).map Prod.fst).dedup.length
       ∧ (extractRequirementsFromBackup c10content).length
           < (parsedRows c10content).length) :=
  ⟨by decide, C10_last_wins c10content (by decide)⟩

/-! ### C7 -/

/-- C7: when more than 20 rows match the second INSERT target, the sample
file receives exactly the first 20 statements in control-id-sorted order
and none of the later sorted statements (the sorted list having no
duplicate entries), while the first target's file receives every matching
statement. -/
theorem C7_sample_truncation (l₁ l₂ : List (Str × Str)) (h : 20 < l₂.length)
    (hnd : (sortByControlId l₂).Nodup) :
    (iso27001SortedInserts l₁).Perm l₁
    ∧ iso27002SampleInserts l₂ = (sortByControlId l₂).take 20
    ∧ (iso27002SampleInserts l₂).length = 20
    ∧ ∀ (k : Nat) (hk2 : k < (sortByControlId l₂).length), 20 ≤ k →
        (sortByControlId l₂).get ⟨k, hk2⟩ ∉ iso27002SampleInserts l₂ := by
  have hslen : (sortByControlId l₂).length = l₂.length :=
    List.length_insertionSort insertLe l₂
  refine ⟨sortByControlId_perm l₁, rfl, ?_, ?_⟩
  · rw [iso27002SampleInserts, List.length_take]
    omega
  · intro k hk2 hk hmem
    rw [iso27002SampleInserts] at hmem
    obtain ⟨⟨j, hj⟩, hget⟩ := List.mem_iff_get.mp hmem
    have hj20 : j < 20 := by
      rw [List.length_take] at hj
      omega
    have hjlen : j < (sortByControlId l₂).length := by omega
    have hEq : (sortByControlId l₂).get ⟨j, hjlen⟩ = (sortByControlId l₂).get ⟨k, hk2⟩ := by
      rw [← hget]
      simp [List.get_eq_getElem, List.getElem_take]
    have hfin := (hnd.get_inj_iff).mp hEq
    have : j = k := congrArg Fin.val hfin
    omega

/-- C7 witness: a concrete 21-row match list for both targets. -/
theorem C7_sample_truncation_witness :
    (20 < c7w.length ∧ (sortByControlId c7w).Nodup)
    ∧ ((iso27001SortedInserts c7w).Perm c7w
       ∧ iso27002SampleInserts c7w = (sortByControlId c7w).take 20
       ∧ (iso27002SampleInserts c7w).length = 20
       ∧ ∀ (k : Nat) (hk2 : k < (sortByControlId c7w).length), 20 ≤ k →
           (sortByControlId c7w).get ⟨k, hk2⟩ ∉ iso27002SampleInserts c7w) :=
  ⟨⟨by decide, by decide⟩, C7_sample_truncation c7w c7w (by decide) (by decide)⟩

/-! ### C5 -/

theorem noUndoubled_qq (t : Str) : noUndoubled ('\'' :: '\'' :: t) = noUndoubled t := by
  rw [noUndoubled]
  simp

theorem noUndoubled_cons (c : Char) (t : Str) (h : c ≠ '\'') :
    noUndoubled (c :: t) = noUndoubled t := by
  rw [noUndoubled.eq_def]
  simp only [if_neg h]

theorem escQuote_noUndoubled : ∀ s : Str, noUndoubled (escQuote s) = true := by
  intro s
  induction s with
  | nil => rfl
  | cons c rest ih =>
    by_cases h : c = '\''
    · subst h
      rw [show escQuote ('\'' :: rest) = '\'' :: '\'' :: escQuote rest from by
        simp [escQuote]]
      rw [noUndoubled_qq]
      exact ih
    · rw [show escQuote (c :: rest) = c :: escQuote rest from by simp [escQuote, h]]
      rw [noUndoubled_cons c _ h]
      exact ih

/-- C5: the restoration generator renders the title and description lines
of each UPDATE statement with the quote-doubled title and description,
the INSERT generator interpolates the quote-doubled title and description
between the template's single quotes, and a quote-doubled string never
contains an undoubled single quote. -/
theorem C5_escaping (parts : List Str) (rid sid ctl t d : Str) :
    (updateStatementLines rid ⟨sid, ctl, t, d⟩).getD 2 []
        = "  title = '".data ++ escQuote t ++ "',".data
    ∧ (updateStatementLines rid ⟨sid, ctl, t, d⟩).getD 3 []
        = "  description = '".data ++ escQuote d ++ "',".data
    ∧ (∃ u v : Str, u ++ (q ++ escQuote (parts.getD 3 []) ++ q) ++ v = insertStmt parts)
    ∧ (∃ u v : Str, u ++ (q ++ escQuote (parts.getD 4 []) ++ q) ++ v = insertStmt parts)
    ∧ (∀ s : Str, noUndoubled (escQuote s) = true) := by
  refine ⟨rfl, rfl, ?_, ?_, escQuote_noUndoubled⟩
  · refine ⟨insertPre (parts.getD 0 []) (parts.getD 1 []) (parts.getD 2 []),
      ", ".data ++ q ++ escQuote (parts.getD 4 []) ++ q
        ++ insertPost (escQuote (parts.getD 5 [])) (parts.getD 6 [])
            (quoteIfNotNull (nullableField (parts.getD 7 [])))
            (parts.getD 8 []) (parts.getD 9 []) (parts.getD 10 []) (parts.getD 11 [])
            (quoteIfNotNull (nullableField (parts.getD 12 [])))
            (nullableField (parts.getD 13 []))
            (nullableField (parts.getD 14 []))
            (quoteEscIfNotNull (nullableField (parts.getD 15 [])))
            (quoteIfNotNull (nullableField (parts.getD 16 []))), ?_⟩
    simp [insertStmt, insertSql, List.append_assoc]
  · refine ⟨insertPre (parts.getD 0 []) (parts.getD 1 []) (parts.getD 2 [])
        ++ q ++ escQuote (parts.getD 3 []) ++ q ++ ", ".data,
      insertPost (escQuote (parts.getD 5 [])) (parts.getD 6 [])
            (quoteIfNotNull (nullableField (parts.getD 7 [])))
            (parts.getD 8 []) (parts.getD 9 []) (parts.getD 10 []) (parts.getD 11 [])
            (quoteIfNotNull (nullableField (parts.getD 12 [])))
            (nullableField (parts.getD 13 []))
            (nullableField (parts.getD 14 []))
            (quoteEscIfNotNull (nullableField (parts.getD 15 [])))
            (quoteIfNotNull (nullableField (parts.getD 16 []))), ?_⟩
    simp [insertStmt, insertSql, List.append_assoc]

/-! ### C1 -/

theorem nullableField_eq_renderBare (f : Str) : nullableField f = renderBare f := rfl

theorem quoteIfNotNull_renderBare (f : Str) :
    quoteIfNotNull (renderBare f) = renderPlain f := by
  by_cases hs : f = sentStr
  · subst hs
    rfl
  · by_cases hn : f = nullStr
    · subst hn
      rfl
    · rw [show renderBare f = f from by rw [renderBare, if_neg hs]]
      rw [quoteIfNotNull, if_neg hn, renderPlain, if_neg (by tauto)]

theorem quoteEscIfNotNull_renderBare (f : Str) :
    quoteEscIfNotNull (renderBare f) = renderEsc f := by
  by_cases hs : f = sentStr
  · subst hs
    rfl
  · by_cases hn : f = nullStr
    · subst hn
      rfl
    · rw [show renderBare f = f from by rw [renderBare, if_neg hs]]
      rw [quoteEscIfNotNull, if_neg hn, renderEsc, if_neg (by tauto)]

/-- C1 (claim refuted): on a concrete 18-field row whose
`official_description` is the non-sentinel value `X`, the generated
INSERT statement contains `, X, ` — the value interpolated bare — and
does not contain `'X'` anywhere: the non-sentinel nullable field is NOT
wrapped in single quotes. -/
theorem C1_counterexample :
    (partsToInsert c1parts).isSome = true
    ∧ isSubstr (", X, ".data) (((partsToInsert c1parts).getD ([], [], [])).2.2) = true
    ∧ isSubstr ("'X'".data) (((partsToInsert c1parts).getD ([], [], [])).2.2) = false := by
  set_option maxRecDepth 10000 in decide

/-- C1 (amended): for every row with at least 18 tab-separated fields,
the sentinel `\N` renders as bare `NULL` in all six nullable fields;
among non-sentinel values, `parent_requirement_id`, `tags` and `section`
are wrapped in single quotes WITHOUT escaping, `audit_ready_guidance` is
quote-doubled and wrapped, and `official_description` and
`implementation_guidance` are interpolated bare (unquoted, unescaped);
a non-sentinel value equal to the literal string `NULL` also renders bare
in the four quoted fields. -/
theorem C1_amended (parts : List Str) (h : 18 ≤ parts.length) :
    partsToInsert parts = some (parts.getD 1 [], parts.getD 2 [],
      insertSql (parts.getD 0 []) (parts.getD 1 []) (parts.getD 2 [])
        (escQuote (parts.getD 3 [])) (escQuote (parts.getD 4 [])) (escQuote (parts.getD 5 []))
        (parts.getD 6 [])
        (renderPlain (parts.getD 7 []))
        (parts.getD 8 []) (parts.getD 9 []) (parts.getD 10 []) (parts.getD 11 [])
        (renderPlain (parts.getD 12 []))
        (renderBare (parts.getD 13 []))
        (renderBare (parts.getD 14 []))
        (renderEsc (parts.getD 15 []))
        (renderPlain (parts.getD 16 []))) := by
  rw [partsToInsert, if_pos h, insertStmt]
  simp only [nullableField_eq_renderBare, quoteIfNotNull_renderBare,
    quoteEscIfNotNull_renderBare]

/-- C1 witness: the amended rendering equation instantiated at the
concrete 18-field row. -/
theorem C1_amended_witness :
    18 ≤ c1parts.length
    ∧ partsToInsert c1parts = some (c1parts.getD 1 [], c1parts.getD 2 [],
        insertSql (c1parts.getD 0 []) (c1parts.getD 1 []) (c1parts.getD 2 [])
          (escQuote (c1parts.getD 3 [])) (escQuote (c1parts.getD 4 []))
          (escQuote (c1parts.getD 5 []))
          (c1parts.getD 6 [])
          (renderPlain (c1parts.getD 7 []))
          (c1parts.getD 8 []) (c1parts.getD 9 []) (c1parts.getD 10 []) (c1parts.getD 11 [])
          (renderPlain (c1parts.getD 12 []))
          (renderBare (c1parts.getD 13 []))
          (renderBare (c1parts.getD 14 []))
          (renderEsc (c1parts.getD 15 []))
          (renderPlain (c1parts.getD 16 []))) :=
  ⟨by decide, C1_amended c1parts (by decide)⟩

/-! ### C9 -/

theorem pySplit_ne_nil (sep : Char) : ∀ l : Str, pySplit sep l ≠ [] := by
  intro l
  cases l with
  | nil => simp [pySplit]
  | cons d rest =>
    rw [pySplit]
    by_cases h : d = sep
    · simp [h]
    · simp only [if_neg h]
      cases hr : pySplit sep rest with
      | nil => simp
      | cons a t => simp

theorem mem_pySplit (sep : Char) :
    ∀ (l : Str) (x : Str), x ∈ pySplit sep l → ∀ a ∈ x, a ∈ l ∧ a ≠ sep := by
  intro l
  induction l with
  | nil =>
    intro x hx a ha
    simp [pySplit] at hx
    subst hx
    simp at ha
  | cons d rest ih =>
    intro x hx a ha
    rw [pySplit] at hx
    by_cases h : d = sep
    · rw [if_pos h] at hx
      rcases List.mem_cons.mp hx with hx | hx
      · subst hx; simp at ha
      · have := ih x hx a ha
        exact ⟨List.mem_cons_of_mem _ this.1, this.2⟩
    · rw [if_neg h] at hx
      cases hr : pySplit sep rest with
      | nil => exact absurd hr (pySplit_ne_nil sep rest)
      | cons hh tt =>
        rw [hr] at hx
        rcases List.mem_cons.mp hx with hx | hx
        · subst hx
          rcases List.mem_cons.mp ha with ha | ha
          · subst ha
            exact ⟨List.mem_cons_self _ _, h⟩
          · have hhm : hh ∈ pySplit sep rest := by rw [hr]; exact List.mem_cons_self _ _
            have := ih hh hhm a ha
            exact ⟨List.mem_cons_of_mem _ this.1, this.2⟩
        · have hxm : x ∈ pySplit sep rest := by rw [hr]; exact List.mem_cons_of_mem _ hx
          have := ih x hxm a ha
          exact ⟨List.mem_cons_of_mem _ this.1, this.2⟩

theorem mem_escQuote : ∀ (s : Str) (a : Char), a ∈ escQuote s → a ∈ s ∨ a = '\'' := by
  intro s
  induction s with
  | nil => intro a ha; simp [escQuote] at ha
  | cons c rest ih =>
    intro a ha
    by_cases h : c = '\''
    · subst h
      rw [show escQuote ('\'' :: rest) = '\'' :: '\'' :: escQuote rest from by
        simp [escQuote]] at ha
      rcases List.mem_cons.mp ha with ha | ha
      · exact Or.inr ha
      · rcases List.mem_cons.mp ha with ha | ha
        · exact Or.inr ha
        · rcases ih a ha with h' | h'
          · exact Or.inl (List.mem_cons_of_mem _ h')
          · exact Or.inr h'
    · rw [show escQuote (c :: rest) = c :: escQuote rest from by simp [escQuote, h]] at ha
      rcases List.mem_cons.mp ha with ha | ha
      · exact Or.inl (ha ▸ List.mem_cons_self _ _)
      · rcases ih a ha with h' | h'
        · exact Or.inl (List.mem_cons_of_mem _ h')
        · exact Or.inr h'

theorem mem_pyStrip {l : Str} {a : Char} (h : a ∈ pyStrip l) : a ∈ l := by
  rw [pyStrip] at h
  rw [List.mem_reverse] at h
  have h1 := (List.dropWhile_sublist _).mem h
  rw [List.mem_reverse] at h1
  exact (List.dropWhile_sublist _).mem h1

theorem mem_pySlice {l : Str} {i j : Int} {a : Char} (h : a ∈ pySlice l i j) : a ∈ l := by
  rw [pySlice] at h
  exact (List.drop_sublist _ _).mem (List.mem_of_mem_take h)

theorem digitChar_ne_nl (n : Nat) : digitChar n ≠ '\n' := by
  rw [digitChar.eq_def]
  split <;> decide

theorem natToStrAux_no_nl : ∀ (fuel n : Nat), '\n' ∉ natToStrAux fuel n := by
  intro fuel
  induction fuel with
  | zero =>
    intro n h
    simp [natToStrAux] at h
    exact digitChar_ne_nl n h.symm
  | succ fuel ih =>
    intro n h
    rw [natToStrAux] at h
    by_cases hn : n < 10
    · rw [if_pos hn] at h
      simp at h
      exact digitChar_ne_nl n h.symm
    · rw [if_neg hn] at h
      rcases List.mem_append.mp h with h | h
      · exact ih (n / 10) h
      · simp at h
        exact digitChar_ne_nl (n % 10) h.symm

theorem natToStr_no_nl (n : Nat) : '\n' ∉ natToStr n := natToStrAux_no_nl n n

theorem mem_dictUpsert {α : Type} (k : Str) (v : α) :
    ∀ (d : List (Str × α)) (x : Str × α), x ∈ dictUpsert k v d → x = (k, v) ∨ x ∈ d := by
  intro d
  induction d with
  | nil =>
    intro x hx
    rw [dictUpsert_nil] at hx
    simp at hx
    exact Or.inl hx
  | cons kv rest ih =>
    intro x hx
    obtain ⟨k0, v0⟩ := kv
    by_cases h0 : k0 = k
    · subst h0
      rw [dictUpsert_cons_eq] at hx
      rcases List.mem_cons.mp hx with hx | hx
      · exact Or.inl hx
      · exact Or.inr (List.mem_cons_of_mem _ hx)
    · rw [dictUpsert_cons_ne _ _ _ _ _ h0] at hx
      rcases List.mem_cons.mp hx with hx | hx
      · exact Or.inr (hx ▸ List.mem_cons_self _ _)
      · rcases ih x hx with h' | h'
        · exact Or.inl h'
        · exact Or.inr (List.mem_cons_of_mem _ h')

theorem mem_foldl_upsert {α : Type} :
    ∀ (rows : List (Str × α)) (d : List (Str × α)) (x : Str × α),
      x ∈ rows.foldl (fun d kv => dictUpsert kv.1 kv.2 d) d → x ∈ d ∨ x ∈ rows := by
  intro rows
  induction rows with
  | nil => intro d x hx; exact Or.inl hx
  | cons r rest ih =>
    intro d x hx
    rw [List.foldl_cons] at hx
    rcases ih (dictUpsert r.1 r.2 d) x hx with h' | h'
    · rcases mem_dictUpsert r.1 r.2 d x h' with h'' | h''
      · exact Or.inr (h'' ▸ List.mem_cons_self _ _)
      · exact Or.inl h''
    · exact Or.inr (List.mem_cons_of_mem _ h')

theorem no_nl_append {a b : Str} (ha : '\n' ∉ a) (hb : '\n' ∉ b) : '\n' ∉ a ++ b := by
  intro h
  rcases List.mem_append.mp h with h | h
  · exact ha h
  · exact hb h

theorem no_nl_escQuote {s : Str} (hs : '\n' ∉ s) : '\n' ∉ escQuote s := by
  intro hm
  rcases mem_escQuote s '\n' hm with h | h
  · exact hs h
  · exact absurd h (by decide)

theorem mem_getD_str : ∀ (l : List Str) (i : Nat) (a : Char), a ∈ l.getD i [] → ∃ x ∈ l, a ∈ x := by
  intro l
  induction l with
  | nil => intro i a ha; simp at ha
  | cons x rest ih =>
    intro i a ha
    cases i with
    | zero =>
      rw [List.getD_cons_zero] at ha
      exact ⟨x, List.mem_cons_self _ _, ha⟩
    | succ i =>
      rw [List.getD_cons_succ] at ha
      obtain ⟨y, hy, hay⟩ := ih i a ha
      exact ⟨y, List.mem_cons_of_mem _ hy, hay⟩

theorem rowToPair_eq (line : Str) (kv : Str × ReqData) (h : rowToPair line = some kv) :
    kv = ((pySplit '\t' line).getD 0 [],
      ⟨(pySplit '\t' line).getD 1 [], (pySplit '\t' line).getD 2 [],
       (pySplit '\t' line).getD 3 [], (pySplit '\t' line).getD 4 []⟩) := by
  simp only [rowToPair] at h
  by_cases h5 : 5 ≤ (pySplit '\t' line).length
  · rw [if_pos h5] at h
    exact (Option.some.inj h).symm
  · rw [if_neg h5] at h
    exact absurd h (by simp)

theorem parsedRows_fields (content : Str) :
    ∀ kv ∈ parsedRows content,
      '\n' ∉ kv.1 ∧ '\n' ∉ kv.2.standard_id ∧ '\n' ∉ kv.2.control_id
        ∧ '\n' ∉ kv.2.title ∧ '\n' ∉ kv.2.description := by
  intro kv hkv
  rw [parsedRows] at hkv
  obtain ⟨line, hline, hf⟩ := List.mem_filterMap.mp hkv
  have hline' : line ∈ pySplit '\n' (reqSection content) := by
    have h' := hline
    simp only [nonBlankLines, List.mem_filter] at h'
    exact h'.1
  have hnl : ∀ a ∈ line, a ≠ '\n' := fun a ha =>
    (mem_pySplit '\n' (reqSection content) line hline' a ha).2
  have hfield : ∀ i : Nat, '\n' ∉ (pySplit '\t' line).getD i [] := by
    intro i hmem
    obtain ⟨x, hx, hax⟩ := mem_getD_str (pySplit '\t' line) i '\n' hmem
    exact hnl '\n' (mem_pySplit '\t' line x hx '\n' hax).1 rfl
  rw [rowToPair_eq line kv hf]
  exact ⟨hfield 0, hfield 1, hfield 2, hfield 3, hfield 4⟩

theorem updLines_no_nl (reqId : Str) (rd : ReqData)
    (h0 : '\n' ∉ reqId) (h1 : '\n' ∉ rd.control_id) (h2 : '\n' ∉ rd.title)
    (h3 : '\n' ∉ rd.description) :
    ∀ l ∈ updateStatementLines reqId rd, '\n' ∉ l := by
  have htake : '\n' ∉ (escQuote rd.title).take 60 := fun h =>
    no_nl_escQuote h2 (List.mem_of_mem_take h)
  intro l hl
  simp only [updateStatementLines, List.mem_cons, List.not_mem_nil, or_false] at hl
  rcases hl with h | h | h | h | h | h | h <;> subst h
  · exact no_nl_append (no_nl_append (no_nl_append
      (no_nl_append (show '\n' ∉ "-- Update ".data by decide) h1)
      (show '\n' ∉ ": ".data by decide)) htake)
      (show '\n' ∉ "...".data by decide)
  · decide
  · exact no_nl_append (no_nl_append (show '\n' ∉ "  title = '".data by decide)
      (no_nl_escQuote h2)) (show '\n' ∉ "',".data by decide)
  · exact no_nl_append (no_nl_append (show '\n' ∉ "  description = '".data by decide)
      (no_nl_escQuote h3)) (show '\n' ∉ "',".data by decide)
  · decide
  · exact no_nl_append (no_nl_append (show '\n' ∉ "WHERE id = '".data by decide) h0)
      (show '\n' ∉ "';".data by decide)
  · decide

theorem stdBlock_no_nl (name id : Str) (tr : List (Str × ReqData))
    (hname : '\n' ∉ pyUpper name)
    (htr : ∀ kv ∈ tr, '\n' ∉ kv.1 ∧ '\n' ∉ kv.2.control_id ∧ '\n' ∉ kv.2.title
        ∧ '\n' ∉ kv.2.description) :
    ∀ l ∈ stdBlock name id tr, '\n' ∉ l := by
  intro l hl
  simp only [stdBlock] at hl
  by_cases he : (tr.filter (fun kv => decide (kv.2.standard_id = id))).isEmpty
  · rw [if_pos he] at hl
    exact absurd hl (List.not_mem_nil l)
  · rw [if_neg he] at hl
    rcases List.mem_cons.mp hl with h | hl
    · subst h
      exact no_nl_append (no_nl_append (no_nl_append
        (no_nl_append (show '\n' ∉ "-- ".data by decide) hname)
        (show '\n' ∉ " Requirements (".data by decide)) (natToStr_no_nl _))
        (show '\n' ∉ " total)".data by decide)
    · rcases List.mem_cons.mp hl with h | hl
      · subst h; decide
      · obtain ⟨b, hb, hlb⟩ := List.mem_flatten.mp hl
        obtain ⟨kv, hkv, hbe⟩ := List.mem_map.mp hb
        have hkv' : kv ∈ tr := (List.mem_filter.mp hkv).1
        obtain ⟨f0, f1, f2, f3⟩ := htr kv hkv'
        exact updLines_no_nl kv.1 kv.2 f0 f1 f2 f3 l (hbe ▸ hlb)

theorem restorationLines_no_nl (content : Str) :
    ∀ l ∈ restorationLines content, '\n' ∉ l := by
  intro l hl
  simp only [restorationLines] at hl
  have htr : ∀ kv ∈ targetRequirementsOf (extractRequirementsFromBackup content),
      '\n' ∉ kv.1 ∧ '\n' ∉ kv.2.control_id ∧ '\n' ∉ kv.2.title
        ∧ '\n' ∉ kv.2.description := by
    intro kv hkv
    have h1 : kv ∈ extractRequirementsFromBackup content := by
      have h' := hkv
      simp only [targetRequirementsOf, List.mem_filter] at h'
      exact h'.1
    rcases mem_foldl_upsert (parsedRows content) [] kv
        (by simpa [extractRequirementsFromBackup] using h1) with h2 | h2
    · exact absurd h2 (List.not_mem_nil kv)
    · obtain ⟨g0, _, g2, g3, g4⟩ := parsedRows_fields content kv h2
      exact ⟨g0, g2, g3, g4⟩
  rcases List.mem_append.mp hl with hl | hl
  · rcases List.mem_append.mp hl with hl | hl
    · have hh : ∀ x ∈ restorationHeader, '\n' ∉ x := by decide
      exact hh l hl
    · obtain ⟨b, hb, hlb⟩ := List.mem_flatten.mp hl
      obtain ⟨ts, hts, hbe⟩ := List.mem_map.mp hb
      have : l ∈ stdBlock ts.1 ts.2 (targetRequirementsOf (extractRequirementsFromBackup content)) :=
        hbe ▸ hlb
      simp only [targetStandards, List.mem_cons, List.not_mem_nil, or_false] at hts
      rcases hts with h | h | h | h | h <;> subst h <;>
        exact stdBlock_no_nl _ _ _ (by decide) htr l this
  · have hv : ∀ x ∈ verificationLines, '\n' ∉ x := by decide
    exact hv l hl

theorem mem_intersperse_str {α : Type} (sep : α) :
    ∀ (xs : List α) (x : α), x ∈ xs.intersperse sep → x ∈ xs ∨ x = sep := by
  intro xs
  induction xs with
  | nil => intro x hx; simp at hx
  | cons b tl ih =>
    intro x hx
    cases tl with
    | nil =>
      rw [List.intersperse_singleton] at hx
      exact Or.inl hx
    | cons cc tl2 =>
      rw [List.intersperse_cons_cons] at hx
      rcases List.mem_cons.mp hx with h | hx
      · exact Or.inl (h ▸ List.mem_cons_self _ _)
      · rcases List.mem_cons.mp hx with h | hx
        · exact Or.inr h
        · rcases ih x hx with h | h
          · exact Or.inl (List.mem_cons_of_mem _ h)
          · exact Or.inr h

theorem intercalate_litNl_no_nl (ls : List Str) (h : ∀ l ∈ ls, '\n' ∉ l) :
    '\n' ∉ List.intercalate litNl ls := by
  intro hmem
  have hflat : '\n' ∈ (ls.intersperse litNl).flatten := by
    simpa [List.intercalate] using hmem
  obtain ⟨l, hl, hal⟩ := List.mem_flatten.mp hflat
  rcases mem_intersperse_str litNl ls l hl with h' | h'
  · exact h l h' hal
  · subst h'
    revert hal
    decide

theorem insertEntry_no_nl {p : Str × Str} (hp1 : '\n' ∉ p.1) (hp2 : '\n' ∉ p.2) :
    '\n' ∉ insertEntry p := by
  rw [insertEntry]
  exact no_nl_append (no_nl_append (no_nl_append (no_nl_append (no_nl_append
    (show '\n' ∉ "-- Insert ".data by decide) hp1)
    (show '\n' ∉ litNl by decide)) hp2)
    (show '\n' ∉ litNl by decide)) (show '\n' ∉ litNl by decide)

/-- C9: the restoration generator joins its line list with the literal
two-character sequence backslash-`n`, and its output contains no newline
character at all; likewise, the INSERT generator's header and separator
writes contribute no newline character: the two INSERT artifacts are
newline-free whenever the interpolated control ids and statements are. -/
theorem C9_literal_backslash_n (content : Str) (ins1 ins2 : List (Str × Str))
    (h1 : ∀ p ∈ ins1, '\n' ∉ p.1 ∧ '\n' ∉ p.2)
    (h2 : ∀ p ∈ ins2, '\n' ∉ p.1 ∧ '\n' ∉ p.2) :
    generateRestorationSql content = List.intercalate litNl (restorationLines content)
    ∧ '\n' ∉ generateRestorationSql content
    ∧ '\n' ∉ iso27001FileContent ins1
    ∧ '\n' ∉ iso27002SampleFileContent ins2 := by
  refine ⟨rfl, ?_, ?_, ?_⟩
  · exact intercalate_litNl_no_nl _ (restorationLines_no_nl content)
  · intro hm
    rw [iso27001FileContent] at hm
    rcases List.mem_append.mp hm with hm | hm
    · exact absurd hm (by decide)
    · obtain ⟨e, he, hae⟩ := List.mem_flatten.mp hm
      obtain ⟨p, hp, hpe⟩ := List.mem_map.mp he
      have hp' : p ∈ ins1 := ((sortByControlId_perm ins1).mem_iff).mp hp
      obtain ⟨hp1, hp2⟩ := h1 p hp'
      exact insertEntry_no_nl hp1 hp2 (hpe ▸ hae)
  · intro hm
    rw [iso27002SampleFileContent] at hm
    rcases List.mem_append.mp hm with hm | hm
    · exact absurd hm (by decide)
    · obtain ⟨e, he, hae⟩ := List.mem_flatten.mp hm
      obtain ⟨p, hp, hpe⟩ := List.mem_map.mp he
      have hp' : p ∈ ins2 :=
        ((sortByControlId_perm ins2).mem_iff).mp (List.mem_of_mem_take hp)
      obtain ⟨hp1, hp2⟩ := h2 p hp'
      exact insertEntry_no_nl hp1 hp2 (hpe ▸ hae)

/-- C9 witness: the theorem applied to the one-row backup and concrete
newline-free insert lists. -/
theorem C9_literal_backslash_n_witness :
    ((∀ p ∈ [("a".data, "b".data)], '\n' ∉ p.1 ∧ '\n' ∉ p.2)
      ∧ (∀ p ∈ ([] : List (Str × Str)), '\n' ∉ p.1 ∧ '\n' ∉ p.2))
    ∧ (generateRestorationSql c2content
        = List.intercalate litNl (restorationLines c2content)
       ∧ '\n' ∉ generateRestorationSql c2content
       ∧ '\n' ∉ iso27001FileContent [("a".data, "b".data)]
       ∧ '\n' ∉ iso27002SampleFileContent ([] : List (Str × Str))) :=
  ⟨⟨by decide, by decide⟩,
    C9_literal_backslash_n c2content [("a".data, "b".data)] [] (by decide) (by decide)⟩
